import Mathlib

/-!
Shallow embedding of `src/tfr_mne_sample.py`, an MNE time-frequency
pipeline: load sample EEG recording, preprocess (pick eeg, band-pass,
epoch, resample, truncate trials), Morlet TFR with logratio baseline,
per-trial Right-Left difference, one-sample cluster permutation test,
heatmap rendering and a text report.

Numeric values are modelled over `ℚ` (the script's float arithmetic is
exact in the constructs the claims are about: subtraction, min,
percentile interpolation, truncation, string formatting of counts).
Arrays are lists; a possible NaN is `Option ℚ` with `none` for NaN.
Library-internal numeric kernels (FIR filter, wavelet convolution,
resampling, the permutation loop itself) appear as function parameters
of the environment: the claims are about how the script plumbs them.
-/

namespace TfrPipeline

/-! ## Per-trial condition difference (lines 71-72)

`n = min(X_L.shape[0], X_R.shape[0]); X = X_R[:n] - X_L[:n]`.
Each trial is a (frequency x time) matrix. -/

/-- Elementwise difference of two (frequency x time) matrices. -/
def matSub (a b : List (List ℚ)) : List (List ℚ) :=
  List.zipWith (fun ra rb => List.zipWith (fun x y => x - y) ra rb) a b

/-- Line 72: `X = X_R[:n] - X_L[:n]` with `n = min(X_L.shape[0], X_R.shape[0])`. -/
def trialDiff (xL xR : List (List (List ℚ))) : List (List (List ℚ)) :=
  let n := min xL.length xR.length
  List.zipWith matSub (xR.take n) (xL.take n)

/-! ## Frequency grid and Morlet cycles (lines 41-51)

`freqs = np.linspace(4, 40, 50)`, `n_cycles = freqs / 2.0`, passed to
`compute_tfr(method="morlet", ...)` for both conditions. -/

/-- Model of `np.linspace a b num` with the endpoint included (numpy default). -/
def linspace (a b : ℚ) (num : Nat) : List ℚ :=
  if num ≤ 1 then List.replicate num a
  else (List.range num).map (fun (i : Nat) => a + (b - a) * (i : ℚ) / ((num : ℚ) - 1))

/-- The script's frequency grid: 50 points from 4 Hz to 40 Hz. -/
def pipeFreqs : List ℚ := linspace 4 40 50

/-- Line 42: `n_cycles = freqs / 2.0` (numpy elementwise division). -/
def pipeNCycles : List ℚ := pipeFreqs.map (fun f => f / 2)

/-- Argument record of an `epochs.compute_tfr` call. -/
structure TfrCall where
  method : String
  freqs : List ℚ
  nCycles : List ℚ
  returnItc : Bool
  average : Bool
  decim : Nat

/-- The `compute_tfr` call for the Left condition (lines 44-47). -/
def tfrCallL : TfrCall :=
  { method := "morlet", freqs := pipeFreqs, nCycles := pipeNCycles,
    returnItc := false, average := false, decim := 1 }

/-- The `compute_tfr` call for the Right condition (lines 48-51). -/
def tfrCallR : TfrCall :=
  { method := "morlet", freqs := pipeFreqs, nCycles := pipeNCycles,
    returnItc := false, average := false, decim := 1 }

/-! ## Statistics call (lines 85-95)

`X_2d = X.reshape(n, -1)` flattens each trial's (freq x time) matrix;
`permutation_cluster_1samp_test(X_2d, n_permutations=512, threshold=None,
tail=0, out_type="mask", seed=42)`. -/

/-- Argument record of the `permutation_cluster_1samp_test` call. -/
structure ClusterCall where
  x : List (List ℚ)
  nPermutations : Nat
  threshold : Option ℚ
  tail : Int
  outType : String
  seed : Nat

/-- Builds the statistics call from the per-trial difference array:
reshape to `(n_trials, n_features)` and fix all keyword arguments as in
the script. -/
def mkClusterCall (x3d : List (List (List ℚ))) : ClusterCall :=
  { x := x3d.map List.flatten, nPermutations := 512, threshold := none,
    tail := 0, outType := "mask", seed := 42 }

/-! ## Significance mask (lines 98-102)

`sig_mask = np.zeros(n_features, bool); for cl, p in zip(clusters,
cluster_pv): if p < 0.05: sig_mask |= cl; sig_mask =
sig_mask.reshape(len(freqs), len(times))`. -/

/-- The loop of lines 99-101: OR in every cluster whose p-value is
below 0.05. -/
def buildSigMask (nFeat : Nat) (clusters : List (List Bool)) (pvals : List ℚ) :
    List Bool :=
  (List.zip clusters pvals).foldl
    (fun acc cp => if cp.2 < 1/20 then List.zipWith or acc cp.1 else acc)
    (List.replicate nFeat false)

/-- Row-major reshape of a flat boolean vector to `(nF, nT)`. -/
def reshape2d (nF nT : Nat) (m : List Bool) : List (List Bool) :=
  (List.range nF).map (fun f => (List.range nT).map (fun t => m.getD (f * nT + t) false))

/-! ## Robust colour scaling (lines 108-109)

`vmax = np.nanpercentile(np.abs(diff_mean), 98); vmin = -vmax`. -/

/-- Sorted insertion of a rational into a sorted list. -/
def insertQ (x : ℚ) : List ℚ → List ℚ
  | [] => [x]
  | y :: ys => if x ≤ y then x :: y :: ys else y :: insertQ x ys

/-- Insertion sort, ascending. -/
def sortQ : List ℚ → List ℚ
  | [] => []
  | x :: xs => insertQ x (sortQ xs)

/-- Model of `np.nanpercentile` with numpy's default linear interpolation: drop
NaNs, sort, index at `q/100 * (m-1)` interpolating between the floor
and ceiling positions. The empty case (all-NaN input) is mapped to 0. -/
def nanPercentile (q : ℚ) (xs : List (Option ℚ)) : ℚ :=
  let v := sortQ (xs.filterMap id)
  if v.isEmpty then 0
  else
    let m := v.length
    let h : ℚ := q / 100 * (m - 1)
    let lo := (Int.floor h).toNat
    let hi := (Int.ceil h).toNat
    let vlo := v.getD lo 0
    let vhi := v.getD hi 0
    vlo + (h - lo) * (vhi - vlo)

/-- Line 108: `vmax`, the 98th percentile of `|diff_mean|`, NaNs ignored. -/
def vmaxOf (diffMean : List (List (Option ℚ))) : ℚ :=
  nanPercentile 98 (diffMean.flatten.map (Option.map (fun x => |x|)))

/-- Line 109: `vmin = -vmax`. -/
def vminOf (diffMean : List (List (Option ℚ))) : ℚ :=
  - vmaxOf diffMean

/-! ## Pipeline model

The script is a straight-line sequence of library calls with no
try/except anywhere; fallible steps are modelled in `Except`.  The
delegated numeric kernels (FIR filter, epoch slicing, resampling,
Morlet convolution, baseline logratio, the permutation loop) are fields
of the environment: pure functions, since each is deterministic given
the seed, which the script fixes to 42. -/

/-- Channel kind as recorded in the measurement info. -/
inductive ChKind
  | eeg
  | meg
  | stim
  | eog
deriving DecidableEq

/-- A channel of the recording. -/
structure Channel where
  name : String
  kind : ChKind
deriving DecidableEq

/-- The continuous recording: channels, sampling rate, one signal per
channel. -/
structure Recording where
  channels : List Channel
  sfreq : ℚ
  signals : List (List ℚ)

/-- Descriptor of one preprocessing operation, emitted by the step that
performs it. -/
inductive PrepOp
  | pickEEG
  | bandpass (lo hi : ℚ)
  | epochWindow (tmin tmax : ℚ) (baseline : Option (ℚ × ℚ))
  | resample (rate : ℚ)
  | selectTruncate (cond : String) (n : Nat)
deriving DecidableEq

/-- The failure classes of the script; none is caught anywhere. -/
inductive Err
  | missingRawFile
  | missingEventFile
  | noChannelsMatched
  | emptyChannelList
  | emptyTrialSet
  | diskWriteFailure
deriving DecidableEq

/-- Epoch collection: channel names, rate, time axis, and per-trial
(event code, per-channel data window). -/
structure PEpochs where
  chNames : List String
  sfreq : ℚ
  times : List ℚ
  trials : List (Nat × List (List ℚ))

/-- Run environment: the two input files (`none` models a missing
file), a disk flag for the output writes, and the delegated library
kernels as pure functions. -/
structure Env where
  rawFile : Option Recording
  eventFile : Option (List (Nat × Nat))
  diskOk : Bool
  filtFn : ℚ → ℚ → List ℚ → List ℚ
  timesFn : ℚ → ℚ → ℚ → List ℚ
  sliceFn : ℚ → ℚ → ℚ → Nat → List ℚ → List ℚ
  resampleFn : ℚ → List ℚ → List ℚ
  resampleTimesFn : ℚ → List ℚ → List ℚ
  morletFn : List ℚ → List ℚ → List ℚ → List (List ℚ)
  baselineFn : ℚ × ℚ → List ℚ → List (List ℚ) → List (List ℚ)
  clusterFn : List (List ℚ) → Nat → Nat → List (List Bool) × List ℚ

/-- Line 16, `mne.io.read_raw_fif`: fails when the file is absent. -/
def loadRaw (env : Env) : Except Err Recording :=
  match env.rawFile with
  | none => Except.error Err.missingRawFile
  | some r => Except.ok r

/-- Line 20, `mne.read_events`: fails when the file is absent. -/
def loadEvents (env : Env) : Except Err (List (Nat × Nat)) :=
  match env.eventFile with
  | none => Except.error Err.missingEventFile
  | some es => Except.ok es

/-- Line 17, `raw.pick("eeg")`: keep EEG channels with their signals;
MNE raises when no channel matches the picks. -/
def pickStep (r : Recording) : Except Err (Recording × PrepOp) :=
  if ((r.channels.zip r.signals).filter
      (fun cs => cs.1.kind == ChKind.eeg)).isEmpty then
    Except.error Err.noChannelsMatched
  else Except.ok
    ({ channels := ((r.channels.zip r.signals).filter
         (fun cs => cs.1.kind == ChKind.eeg)).map Prod.fst
       sfreq := r.sfreq
       signals := ((r.channels.zip r.signals).filter
         (fun cs => cs.1.kind == ChKind.eeg)).map Prod.snd }, PrepOp.pickEEG)

/-- Line 18, `raw.filter(1., 40.)`: the FIR kernel itself is the
environment's `filtFn`, applied per channel. -/
def bandpassStep (env : Env) (lo hi : ℚ) (r : Recording) : Recording × PrepOp :=
  ({ r with signals := r.signals.map (env.filtFn lo hi) }, PrepOp.bandpass lo hi)

/-- Lines 25-31, `mne.Epochs(raw, events, event_id, tmin, tmax, baseline=None)`:
(lines 25-31): one trial per event whose code is in the id map, each a
window sliced from every channel.  The program always passes
`baseline=None` (correction deferred to the TFR stage), so no baseline
subtraction happens here; the parameter is recorded in the op. -/
def epochStep (env : Env) (r : Recording) (events : List (Nat × Nat))
    (idVals : List Nat) (tmin tmax : ℚ) (baseline : Option (ℚ × ℚ)) :
    PEpochs × PrepOp :=
  ({ chNames := r.channels.map Channel.name
     sfreq := r.sfreq
     times := env.timesFn r.sfreq tmin tmax
     trials := (events.filter (fun e => idVals.contains e.2)).map
       (fun e => (e.2, r.signals.map (env.sliceFn r.sfreq tmin tmax e.1))) },
   PrepOp.epochWindow tmin tmax baseline)

/-- Line 34, `epochs.resample(250)`: the resampling kernel is the
environment's `resampleFn`, applied per channel of every trial. -/
def resampleStep (env : Env) (rate : ℚ) (ep : PEpochs) : PEpochs × PrepOp :=
  ({ ep with sfreq := rate
             times := env.resampleTimesFn rate ep.times
             trials := ep.trials.map
               (fun tc => (tc.1, tc.2.map (env.resampleFn rate))) },
   PrepOp.resample rate)

/-- Lines 35-36, `epochs["cond"][:80]`: restrict to the trials of one
event code, then keep the first `n`. -/
def selectStep (cond : String) (code : Nat) (n : Nat) (ep : PEpochs) :
    PEpochs × PrepOp :=
  ({ ep with trials := (ep.trials.filter (fun tc => tc.1 == code)).take n },
   PrepOp.selectTruncate cond n)

/-- Result of the preprocessing stage, with the log of the operations
in the order they were performed. -/
structure PrepOut where
  epochsL : PEpochs
  epochsR : PEpochs
  log : List PrepOp

/-- The preprocessing result once the channel pick has succeeded with
recording `r1` and op `op`. -/
def prepOf (env : Env) (r1 : Recording) (op : PrepOp)
    (events : List (Nat × Nat)) : PrepOut :=
  { epochsL := (selectStep "Auditory/Left" 1 80
      (resampleStep env 250
        (epochStep env (bandpassStep env 1 40 r1).1 events [1, 2]
          (-(1/5)) (4/5) none).1).1).1
    epochsR := (selectStep "Auditory/Right" 2 80
      (resampleStep env 250
        (epochStep env (bandpassStep env 1 40 r1).1 events [1, 2]
          (-(1/5)) (4/5) none).1).1).1
    log := [op, PrepOp.bandpass 1 40, PrepOp.epochWindow (-(1/5)) (4/5) none,
      PrepOp.resample 250, PrepOp.selectTruncate "Auditory/Left" 80,
      PrepOp.selectTruncate "Auditory/Right" 80] }

/-- Lines 17-36 in sequence: pick eeg, band-pass 1-40 Hz, epoch
[-0.2 s, 0.8 s] around codes 1 and 2 with baseline deferred, resample
to 250 Hz, first 80 trials of each condition. -/
def preprocess (env : Env) (raw : Recording) (events : List (Nat × Nat)) :
    Except Err PrepOut :=
  match pickStep raw with
  | Except.error e => Except.error e
  | Except.ok (r1, o1) =>
    let (r2, o2) := bandpassStep env 1 40 r1
    let (ep, o3) := epochStep env r2 events [1, 2] (-(1/5)) (4/5) none
    let (ep', o4) := resampleStep env 250 ep
    let (epL, o5) := selectStep "Auditory/Left" 1 80 ep'
    let (epR, o6) := selectStep "Auditory/Right" 2 80 ep'
    Except.ok { epochsL := epL, epochsR := epR, log := [o1, o2, o3, o4, o5, o6] }

/-- Per-trial time-frequency object (trial x channel x freq x time). -/
structure TfrObj where
  chNames : List String
  freqs : List ℚ
  times : List ℚ
  trials : List (List (List (List ℚ)))

/-- Lines 44-56, `epochs.compute_tfr(method="morlet", freqs, n_cycles, average=False)`
followed by `apply_baseline((-0.2, 0.0), mode="logratio")`
(lines 44-56): Morlet power per channel of every trial, then the
logratio baseline kernel over the pre-stimulus window. -/
def tfrStage (env : Env) (ep : PEpochs) : TfrObj :=
  { chNames := ep.chNames
    freqs := pipeFreqs
    times := ep.times
    trials := ep.trials.map (fun tc =>
      tc.2.map (fun sig =>
        env.baselineFn (-(1/5), 0) ep.times (env.morletFn pipeFreqs pipeNCycles sig))) }

/-- Lines 62-63: the preferred name `"EEG 014"` when present, else the
first channel; `ch_names[0]` on an empty list would raise. -/
def chooseChannel (names : List String) : Except Err String :=
  if "EEG 014" ∈ names then Except.ok "EEG 014"
  else
    match names with
    | [] => Except.error Err.emptyChannelList
    | c :: _ => Except.ok c

/-- Lines 66-67, `tfr.copy().pick(ch).data[:, 0, :, :]`: the selected
channel's (freq x time) matrix of every trial. -/
def pickData (tfr : TfrObj) (ch : String) : List (List (List ℚ)) :=
  let idx := tfr.chNames.findIdx (fun nm => nm == ch)
  tfr.trials.map (fun tr => tr.getD idx [])

/-- Elementwise sum of two (freq x time) matrices. -/
def matAdd (a b : List (List ℚ)) : List (List ℚ) :=
  List.zipWith (fun ra rb => List.zipWith (fun x y => x + y) ra rb) a b

/-- Scale every entry of a (freq x time) matrix. -/
def matScale (c : ℚ) (a : List (List ℚ)) : List (List ℚ) :=
  a.map (fun row => row.map (fun x => c * x))

/-- Line 105, `X.mean(axis=0)`: elementwise mean over trials. -/
def matMean (x : List (List (List ℚ))) : List (List ℚ) :=
  match x with
  | [] => []
  | x0 :: xs => matScale (1 / ((x0 :: xs).length : ℚ)) (xs.foldl matAdd x0)

/-- One-decimal formatting of a rational (`{v:.1f}`), for the report's
frequency line; the program only formats the exact values 4.0 and
40.0 here. -/
def fmt1 (q : ℚ) : String :=
  let t : Int := round (q * 10)
  let ip := t / 10
  let fp := (t % 10).natAbs
  toString ip ++ "." ++ toString fp

/-- The report body of lines 151-157, one string per `f.write`. -/
def reportBody (ch : String) (nL nR n : Nat) (baselineText : String)
    (freqs : List ℚ) (outPng : String) : List String :=
  [ "EEG Time–Frequency (research-level mini pipeline)"
  , "Channel: " ++ ch
  , "Epochs Left/Right used: " ++ toString nL ++ " / " ++ toString nR ++
      " (matched n=" ++ toString n ++ ")"
  , "Baseline: " ++ baselineText ++ ", mode=logratio"
  , "Freqs: " ++ fmt1 (freqs.headD 0) ++ "-" ++ fmt1 (freqs.getLastD 0) ++
      " Hz (n=" ++ toString freqs.length ++ ")"
  , "Stats: permutation_cluster_1samp_test on (Right-Left), alpha=0.05"
  , "Output figure: " ++ outPng ]

/-- Everything the run leaves behind: files written (paths in order),
the report's lines, stdout, the preprocessing log, the per-condition
power arrays, and the arrays the spec's determinism property names. -/
structure Output where
  files : List String
  report : List String
  printed : List String
  prepLog : List PrepOp
  channel : String
  titleText : String
  statsCall : ClusterCall
  powerL : List (List (List (List ℚ)))
  powerR : List (List (List (List ℚ)))
  sigMask : List (List Bool)
  diffMean : List (List ℚ)
  vmin : ℚ
  vmax : ℚ

/-- Lines 41-159 once every fallible step has succeeded: TFR of both
conditions, single-channel extraction, per-trial difference, cluster
test, significance mask, mean-difference map, colour bounds, figure,
report, completion message. -/
def runSuccess (env : Env) (prep : PrepOut) (ch : String) : Output :=
  let tfrL := tfrStage env prep.epochsL
  let tfrR := tfrStage env prep.epochsR
  let xL := pickData tfrL ch
  let xR := pickData tfrR ch
  let n := min xL.length xR.length
  let x := trialDiff xL xR
  let call := mkClusterCall x
  let res := env.clusterFn call.x call.nPermutations call.seed
  let nFeat := (call.x.headD []).length
  let sigMask := reshape2d tfrL.freqs.length tfrL.times.length
    (buildSigMask nFeat res.1 res.2)
  let diffMean := matMean x
  { files := ["results/tfr_diff_with_stats.png", "results/run_report.txt"]
    report := reportBody ch prep.epochsL.trials.length
      prep.epochsR.trials.length n "(-0.2, 0.0)"
      tfrL.freqs "results/tfr_diff_with_stats.png"
    printed := ["Done. Saved: results/tfr_diff_with_stats.png"]
    prepLog := prep.log
    channel := ch
    titleText := "TFR Difference (Right − Left), logratio baseline — " ++ ch
    statsCall := call
    powerL := tfrL.trials
    powerR := tfrR.trials
    sigMask := sigMask
    diffMean := diffMean
    vmin := vminOf (diffMean.map (fun row => row.map some))
    vmax := vmaxOf (diffMean.map (fun row => row.map some)) }

/-- The whole of `main` (lines 6-159) as one `Except` computation: no
step's error is caught, so any failure is the run's result. -/
def mainE (env : Env) : Except Err Output :=
  match loadRaw env with
  | Except.error e => Except.error e
  | Except.ok raw =>
  match loadEvents env with
  | Except.error e => Except.error e
  | Except.ok events =>
  match preprocess env raw events with
  | Except.error e => Except.error e
  | Except.ok prep =>
  match chooseChannel (tfrStage env prep.epochsL).chNames with
  | Except.error e => Except.error e
  | Except.ok ch =>
  if (mkClusterCall (trialDiff (pickData (tfrStage env prep.epochsL) ch)
      (pickData (tfrStage env prep.epochsR) ch))).x.isEmpty then
    Except.error Err.emptyTrialSet
  else if env.diskOk then
    Except.ok (runSuccess env prep ch)
  else
    Except.error Err.diskWriteFailure

/-- Process exit status from the run's result: 0 on success, nonzero
when the uncaught exception terminates the interpreter. -/
def exitCode (r : Except Err Output) : Nat :=
  match r with
  | Except.ok _ => 0
  | Except.error _ => 1

/-! ## Helper lemmas -/

lemma linspace_length (a b : ℚ) (num : Nat) : (linspace a b num).length = num := by
  unfold linspace
  split
  · exact List.length_replicate num a
  · rw [List.length_map, List.length_range]

lemma pipeFreqs_length : pipeFreqs.length = 50 := linspace_length 4 40 50

lemma pipeNCycles_length : pipeNCycles.length = 50 := by
  unfold pipeNCycles
  rw [List.length_map, pipeFreqs_length]

lemma getD_map_of_lt {α β : Type} (f : α → β) (l : List α) (i : Nat) (d : α)
    (h : i < l.length) : (l.map f).getD i (f d) = f (l.getD i d) := by
  induction l generalizing i with
  | nil => simp at h
  | cons x xs ih =>
    cases i with
    | zero => rfl
    | succ j => exact ih j (Nat.lt_of_succ_lt_succ h)

lemma pickStep_ok_inv {r : Recording} {ro : Recording × PrepOp}
    (h : pickStep r = Except.ok ro) :
    ro.2 = PrepOp.pickEEG ∧ ro.1.channels ≠ [] := by
  unfold pickStep at h
  split at h
  · exact absurd h (by intro hc; cases hc)
  next hne =>
    injection h with h'
    rw [← h']
    refine ⟨rfl, ?_⟩
    intro hmap
    rw [List.map_eq_nil_iff] at hmap
    rw [hmap] at hne
    exact hne rfl

lemma preprocess_eq_of_pick_ok {env : Env} {raw : Recording}
    {events : List (Nat × Nat)} {r1 : Recording} {op : PrepOp}
    (hp : pickStep raw = Except.ok (r1, op)) :
    preprocess env raw events = Except.ok (prepOf env r1 op events) := by
  unfold preprocess prepOf
  rw [hp]
  rfl

lemma preprocess_eq_of_pick_err {env : Env} {raw : Recording}
    {events : List (Nat × Nat)} {e : Err}
    (hp : pickStep raw = Except.error e) :
    preprocess env raw events = Except.error e := by
  unfold preprocess
  rw [hp]

lemma chooseChannel_ok_of_ne_nil {names : List String} (h : names ≠ []) :
    ∃ c, chooseChannel names = Except.ok c := by
  unfold chooseChannel
  split
  · exact ⟨"EEG 014", rfl⟩
  · cases names with
    | nil => exact absurd rfl h
    | cons nm rest => exact ⟨nm, rfl⟩

lemma loadRaw_some {env : Env} {raw : Recording} (h : env.rawFile = some raw) :
    loadRaw env = Except.ok raw := by
  unfold loadRaw
  rw [h]

lemma loadEvents_some {env : Env} {events : List (Nat × Nat)}
    (h : env.eventFile = some events) :
    loadEvents env = Except.ok events := by
  unfold loadEvents
  rw [h]

lemma mainE_eq_of_steps {env : Env} {raw : Recording}
    {events : List (Nat × Nat)} {prep : PrepOut} {ch : String}
    (hraw : env.rawFile = some raw) (hev : env.eventFile = some events)
    (hpre : preprocess env raw events = Except.ok prep)
    (hch : chooseChannel (tfrStage env prep.epochsL).chNames = Except.ok ch) :
    mainE env =
      if (mkClusterCall (trialDiff (pickData (tfrStage env prep.epochsL) ch)
          (pickData (tfrStage env prep.epochsR) ch))).x.isEmpty then
        Except.error Err.emptyTrialSet
      else if env.diskOk then
        Except.ok (runSuccess env prep ch)
      else
        Except.error Err.diskWriteFailure := by
  unfold mainE
  rw [loadRaw_some hraw, loadEvents_some hev]
  dsimp only
  rw [hpre]
  dsimp only
  rw [hch]

/-- Case analysis on a completed run: success determines every step's
success and the shape of the output. -/
lemma mainE_ok_inv {env : Env} {out : Output} (h : mainE env = Except.ok out) :
    ∃ raw events prep ch,
      env.rawFile = some raw ∧ env.eventFile = some events ∧
      preprocess env raw events = Except.ok prep ∧
      chooseChannel (tfrStage env prep.epochsL).chNames = Except.ok ch ∧
      (mkClusterCall (trialDiff (pickData (tfrStage env prep.epochsL) ch)
        (pickData (tfrStage env prep.epochsR) ch))).x.isEmpty = false ∧
      env.diskOk = true ∧ out = runSuccess env prep ch := by
  unfold mainE at h
  cases hraw : env.rawFile with
  | none =>
    rw [show loadRaw env = Except.error Err.missingRawFile from by
      unfold loadRaw; rw [hraw]] at h
    simp at h
  | some raw =>
  rw [loadRaw_some hraw] at h
  dsimp only at h
  cases hev : env.eventFile with
  | none =>
    rw [show loadEvents env = Except.error Err.missingEventFile from by
      unfold loadEvents; rw [hev]] at h
    simp at h
  | some events =>
  rw [loadEvents_some hev] at h
  dsimp only at h
  cases hpre : preprocess env raw events with
  | error e => rw [hpre] at h; simp at h
  | ok prep =>
  rw [hpre] at h
  dsimp only at h
  cases hch : chooseChannel (tfrStage env prep.epochsL).chNames with
  | error e => rw [hch] at h; simp at h
  | ok ch =>
  rw [hch] at h
  dsimp only at h
  refine ⟨raw, events, prep, ch, rfl, rfl, hpre, hch, ?_⟩
  by_cases hempty : (mkClusterCall (trialDiff (pickData (tfrStage env prep.epochsL) ch)
      (pickData (tfrStage env prep.epochsR) ch))).x.isEmpty = true
  · rw [if_pos hempty] at h; cases h
  · rw [if_neg hempty] at h
    refine ⟨Bool.not_eq_true _ ▸ hempty, ?_⟩
    by_cases hdisk : env.diskOk = true
    · rw [if_pos hdisk] at h
      injection h with h'
      exact ⟨hdisk, h'.symm⟩
    · rw [if_neg hdisk] at h; cases h

/-- The channel names seen by the channel-selection step on a
successful preprocessing run are those of the picked recording, hence
nonempty. -/
lemma preprocess_ok_chNames {env : Env} {raw : Recording}
    {events : List (Nat × Nat)} {prep : PrepOut}
    (h : preprocess env raw events = Except.ok prep) :
    ∃ r1 op, pickStep raw = Except.ok (r1, op) ∧
      prep.epochsL.chNames = r1.channels.map Channel.name ∧
      prep.epochsR.chNames = r1.channels.map Channel.name := by
  cases hp : pickStep raw with
  | error e => rw [preprocess_eq_of_pick_err hp] at h; cases h
  | ok ro =>
    obtain ⟨r1, op⟩ := ro
    rw [preprocess_eq_of_pick_ok hp] at h
    injection h with h'
    rw [← h']
    exact ⟨r1, op, rfl, rfl, rfl⟩

lemma trialDiff_length (xL xR : List (List (List ℚ))) :
    (trialDiff xL xR).length = min xL.length xR.length := by
  unfold trialDiff
  rw [List.length_zipWith, List.length_take, List.length_take]
  omega

lemma filter_code_sub (events : List (Nat × Nat)) (ids : List Nat) (c : Nat)
    (hc : ids.contains c = true) :
    (events.filter (fun e => ids.contains e.2)).filter (fun e => e.2 == c) =
      events.filter (fun e => e.2 == c) := by
  rw [List.filter_filter]
  apply List.filter_congr
  intro e _
  cases he : (e.2 == c) with
  | false => rw [Bool.false_and]
  | true =>
    rw [Bool.true_and]
    have he' : e.2 = c := by simpa using he
    rw [he']
    exact hc

lemma length_filter_double_map {α β γ : Type} (l : List α) (code : α → Nat)
    (dat : α → β) (dat2 : β → γ) (c : Nat) :
    (((l.map (fun e => (code e, dat e))).map
        (fun tc => (tc.1, dat2 tc.2))).filter (fun tc => tc.1 == c)).length =
      (l.filter (fun e => code e == c)).length := by
  induction l with
  | nil => rfl
  | cons x xs ih =>
    simp only [List.map_cons]
    cases hx : (code x == c) with
    | true =>
      rw [List.filter_cons]
      dsimp only
      rw [hx, if_pos rfl, List.length_cons, ih]
      rw [List.filter_cons, hx, if_pos rfl, List.length_cons]
    | false =>
      rw [List.filter_cons]
      dsimp only
      rw [hx, if_neg Bool.false_ne_true, ih]
      rw [List.filter_cons, hx, if_neg Bool.false_ne_true]

/-- Trial count of one condition after epoching, resampling, and
`[:80]` truncation: the first 80 of the events bearing that code. -/
lemma epochs_cond_length (env : Env) (r2 : Recording)
    (events : List (Nat × Nat)) (cond : String) (c : Nat)
    (hc : ([1, 2] : List Nat).contains c = true)
    (tmin tmax : ℚ) (b : Option (ℚ × ℚ)) :
    ((selectStep cond c 80 (resampleStep env 250
        (epochStep env r2 events [1, 2] tmin tmax b).1).1).1).trials.length =
      min 80 (events.filter (fun e => e.2 == c)).length := by
  have h1 : ((selectStep cond c 80 (resampleStep env 250
      (epochStep env r2 events [1, 2] tmin tmax b).1).1).1).trials =
      ((((events.filter (fun e => ([1, 2] : List Nat).contains e.2)).map
        (fun e => (e.2, r2.signals.map (env.sliceFn r2.sfreq tmin tmax e.1)))).map
        (fun tc => (tc.1, tc.2.map (env.resampleFn 250)))).filter
        (fun tc => tc.1 == c)).take 80 := rfl
  rw [h1, List.length_take]
  congr 1
  calc ((((events.filter (fun e => ([1, 2] : List Nat).contains e.2)).map
        (fun e => (e.2, r2.signals.map (env.sliceFn r2.sfreq tmin tmax e.1)))).map
        (fun tc => (tc.1, tc.2.map (env.resampleFn 250)))).filter
        (fun tc => tc.1 == c)).length
      = ((events.filter (fun e => ([1, 2] : List Nat).contains e.2)).filter
          (fun e => e.2 == c)).length :=
        length_filter_double_map _ _ _ _ c
    _ = (events.filter (fun e => e.2 == c)).length := by
        rw [filter_code_sub events [1, 2] c hc]

lemma isEmpty_false_of_length {α : Type} {l : List α} {n : Nat}
    (h : l.length = n + 1) : l.isEmpty = false := by
  cases l with
  | nil => cases h
  | cons a t => rfl

lemma pickData_length (tfr : TfrObj) (ch : String) :
    (pickData tfr ch).length = tfr.trials.length := by
  unfold pickData
  exact List.length_map _ _

lemma tfrStage_trials_length (env : Env) (ep : PEpochs) :
    (tfrStage env ep).trials.length = ep.trials.length :=
  List.length_map _ _

lemma pickStep_err_inv {r : Recording} {e : Err}
    (h : pickStep r = Except.error e) : e = Err.noChannelsMatched := by
  unfold pickStep at h
  split at h
  · injection h with h'
    exact h'.symm
  · cases h

/-! ## Concrete fixtures for witnesses -/

/-- A one-channel test recording. -/
def rawW : Recording :=
  { channels := [{ name := "EEG 014", kind := ChKind.eeg }]
    sfreq := 600
    signals := [[0]] }

/-- 80 Left events followed by 80 Right events. -/
def eventsW : List (Nat × Nat) :=
  (List.range 80).map (fun i => (i, 1)) ++ (List.range 80).map (fun i => (i, 2))

/-- Test environment with identity-like library kernels. -/
def envW : Env :=
  { rawFile := some rawW
    eventFile := some eventsW
    diskOk := true
    filtFn := fun _ _ s => s
    timesFn := fun _ _ _ => [0]
    sliceFn := fun _ _ _ _ s => s
    resampleFn := fun _ s => s
    resampleTimesFn := fun _ t => t
    morletFn := fun _ _ _ => [[0]]
    baselineFn := fun _ _ m => m
    clusterFn := fun _ _ _ => ([], []) }

/-- The test environment with the raw recording file missing. -/
def envNoRaw : Env := { envW with rawFile := none }

/-! ## Claim theorems -/

lemma getD_zipWith_or (a b : List Bool) (i : Nat) (ha : i < a.length)
    (hb : i < b.length) :
    (List.zipWith or a b).getD i false = (a.getD i false || b.getD i false) := by
  induction a generalizing b i with
  | nil => simp at ha
  | cons x xs ih =>
    cases b with
    | nil => simp at hb
    | cons y ys =>
      cases i with
      | zero => rfl
      | succ j =>
        exact ih ys j (Nat.lt_of_succ_lt_succ ha) (Nat.lt_of_succ_lt_succ hb)

/-- One pass of the loop body of lines 99-101. -/
lemma sigStep_length (acc : List Bool) (cp : List Bool × ℚ)
    (h : cp.1.length = acc.length) :
    (if cp.2 < 1/20 then List.zipWith or acc cp.1 else acc).length = acc.length := by
  split
  · rw [List.length_zipWith, h, Nat.min_self]
  · rfl

lemma sigFold_length (l : List (List Bool × ℚ)) (acc : List Bool)
    (hcl : ∀ cp ∈ l, cp.1.length = acc.length) :
    (l.foldl (fun acc cp => if cp.2 < 1/20 then List.zipWith or acc cp.1 else acc)
      acc).length = acc.length := by
  induction l generalizing acc with
  | nil => rfl
  | cons c cs ih =>
    rw [List.foldl_cons]
    have hc := sigStep_length acc c (hcl c (List.mem_cons_self c cs))
    rw [ih _ (fun cp hcp => by
      rw [hc]; exact hcl cp (List.mem_cons_of_mem c hcp)), hc]

lemma sigFold_getD (l : List (List Bool × ℚ)) (acc : List Bool) (i : Nat)
    (hcl : ∀ cp ∈ l, cp.1.length = acc.length) (hi : i < acc.length) :
    (l.foldl (fun acc cp => if cp.2 < 1/20 then List.zipWith or acc cp.1 else acc)
        acc).getD i false =
      (acc.getD i false ||
        l.any (fun cp => decide (cp.2 < 1/20) && cp.1.getD i false)) := by
  induction l generalizing acc with
  | nil => simp
  | cons c cs ih =>
    rw [List.foldl_cons]
    have hc := sigStep_length acc c (hcl c (List.mem_cons_self c cs))
    rw [ih _ (fun cp hcp => by
      rw [hc]; exact hcl cp (List.mem_cons_of_mem c hcp)) (by rw [hc]; exact hi)]
    have hstep : (if c.2 < 1/20 then List.zipWith or acc c.1 else acc).getD i false =
        (acc.getD i false || (decide (c.2 < 1/20) && c.1.getD i false)) := by
      split
      next hp =>
        rw [getD_zipWith_or acc c.1 i hi
          (by rw [hcl c (List.mem_cons_self c cs)]; exact hi),
          decide_eq_true hp, Bool.true_and]
      next hp =>
        rw [decide_eq_false hp, Bool.false_and, Bool.or_false]
    rw [hstep, List.any_cons, Bool.or_assoc]

lemma getD_replicate_false (n i : Nat) :
    (List.replicate n false).getD i false = false := by
  induction n generalizing i with
  | zero => rfl
  | succ m ih =>
    cases i with
    | zero => rfl
    | succ j => exact ih j

/-- C1. A point of the reshaped significance mask is set exactly when
it belongs to some cluster whose p-value is below 0.05; in particular
clusters with p ≥ 0.05 contribute no points of their own. -/
theorem sig_mask_or_of_significant (nF nT : Nat) (clusters : List (List Bool))
    (pvals : List ℚ) (hlen : ∀ cl ∈ clusters, cl.length = nF * nT)
    (f t : Nat) (hf : f < nF) (ht : t < nT) :
    (((reshape2d nF nT (buildSigMask (nF * nT) clusters pvals)).getD f []).getD
        t false = true ↔
      ∃ cp ∈ List.zip clusters pvals, cp.2 < 1/20 ∧
        cp.1.getD (f * nT + t) false = true) ∧
    (∀ cp ∈ List.zip clusters pvals, ¬ cp.2 < 1/20 →
      cp.1.getD (f * nT + t) false = true →
      ((reshape2d nF nT (buildSigMask (nF * nT) clusters pvals)).getD f []).getD
          t false = true →
      ∃ cq ∈ List.zip clusters pvals, cq.2 < 1/20 ∧
        cq.1.getD (f * nT + t) false = true) := by
  have hidx : f * nT + t < nF * nT := by
    calc f * nT + t < f * nT + nT := by omega
    _ = (f + 1) * nT := by ring
    _ ≤ nF * nT := Nat.mul_le_mul_right nT (by omega)
  have hrow : (reshape2d nF nT (buildSigMask (nF * nT) clusters pvals)).getD f [] =
      (List.range nT).map
        (fun s => (buildSigMask (nF * nT) clusters pvals).getD (f * nT + s) false) := by
    unfold reshape2d
    have hflt : f < (List.range nF).length := by rw [List.length_range]; exact hf
    rw [List.getD_eq_getElem _ _ (by rw [List.length_map]; exact hflt),
      List.getElem_map, List.getElem_range]
  have hpt : ((reshape2d nF nT (buildSigMask (nF * nT) clusters pvals)).getD f []).getD
      t false = (buildSigMask (nF * nT) clusters pvals).getD (f * nT + t) false := by
    rw [hrow]
    have htl : t < (List.range nT).length := by rw [List.length_range]; exact ht
    rw [List.getD_eq_getElem _ _ (by rw [List.length_map]; exact htl),
      List.getElem_map, List.getElem_range]
  have hcl : ∀ cp ∈ List.zip clusters pvals, cp.1.length =
      (List.replicate (nF * nT) false).length := by
    intro cp hcp
    rw [List.length_replicate]
    exact hlen cp.1 (List.of_mem_zip hcp).1
  have hmask : (buildSigMask (nF * nT) clusters pvals).getD (f * nT + t) false =
      (List.zip clusters pvals).any
        (fun cp => decide (cp.2 < 1/20) && cp.1.getD (f * nT + t) false) := by
    unfold buildSigMask
    rw [sigFold_getD _ _ _ hcl (by rw [List.length_replicate]; exact hidx),
      getD_replicate_false, Bool.false_or]
  have hiff : ((reshape2d nF nT (buildSigMask (nF * nT) clusters pvals)).getD f []).getD
      t false = true ↔
      ∃ cp ∈ List.zip clusters pvals, cp.2 < 1/20 ∧
        cp.1.getD (f * nT + t) false = true := by
    rw [hpt, hmask, List.any_eq_true]
    constructor
    · rintro ⟨cp, hcp, hp⟩
      rw [Bool.and_eq_true, decide_eq_true_iff] at hp
      exact ⟨cp, hcp, hp.1, hp.2⟩
    · rintro ⟨cp, hcp, hp1, hp2⟩
      exact ⟨cp, hcp, by rw [Bool.and_eq_true, decide_eq_true_iff]; exact ⟨hp1, hp2⟩⟩
  exact ⟨hiff, fun cp _ _ _ hset => hiff.mp hset⟩

/-- C1 witness: two 2 x 2 clusters, one significant (p = 0.01), one not
(p = 0.5); the point (0,0) is set through the significant cluster. -/
theorem sig_mask_or_witness :
    (((reshape2d 2 2 (buildSigMask (2 * 2)
        [[true, false, false, false], [true, true, false, false]]
        [1/100, 1/2])).getD 0 []).getD 0 false = true ↔
      ∃ cp ∈ List.zip [[true, false, false, false], [true, true, false, false]]
          [(1 : ℚ)/100, 1/2], cp.2 < 1/20 ∧
        cp.1.getD (0 * 2 + 0) false = true) ∧
    (∀ cp ∈ List.zip [[true, false, false, false], [true, true, false, false]]
        [(1 : ℚ)/100, 1/2], ¬ cp.2 < 1/20 →
      cp.1.getD (0 * 2 + 0) false = true →
      (((reshape2d 2 2 (buildSigMask (2 * 2)
          [[true, false, false, false], [true, true, false, false]]
          [1/100, 1/2])).getD 0 []).getD 0 false = true) →
      ∃ cq ∈ List.zip [[true, false, false, false], [true, true, false, false]]
          [(1 : ℚ)/100, 1/2], cq.2 < 1/20 ∧
        cq.1.getD (0 * 2 + 0) false = true) :=
  sig_mask_or_of_significant 2 2
    [[true, false, false, false], [true, true, false, false]]
    [1/100, 1/2] (by decide) 0 0 (by decide) (by decide)

/-- C2. The per-trial difference array `X = X_R[:n] - X_L[:n]` has
exactly `n = min(|L|, |R|)` rows, its `i`-th row is the elementwise
difference of the `i`-th rows of `X_R` and `X_L` for every `i < n`,
and `|L| = 80, |R| = 65` gives `n = 65`. -/
theorem trialDiff_rows (xL xR : List (List (List ℚ))) :
    (trialDiff xL xR).length = min xL.length xR.length ∧
    (∀ i, i < min xL.length xR.length →
      (trialDiff xL xR).getD i [] = matSub (xR.getD i []) (xL.getD i [])) ∧
    (xL.length = 80 → xR.length = 65 → (trialDiff xL xR).length = 65) := by
  have hlen : (trialDiff xL xR).length = min xL.length xR.length := by
    unfold trialDiff
    rw [List.length_zipWith, List.length_take, List.length_take]
    omega
  refine ⟨hlen, ?_, ?_⟩
  · intro i hi
    unfold trialDiff
    set n := min xL.length xR.length with hn
    have hiR : i < (xR.take n).length := by
      rw [List.length_take]; omega
    have hiL : i < (xL.take n).length := by
      rw [List.length_take]; omega
    have hiz : i < (List.zipWith matSub (xR.take n) (xL.take n)).length := by
      rw [List.length_zipWith]; omega
    rw [List.getD_eq_getElem _ _ hiz, List.getElem_zipWith,
      List.getElem_take, List.getElem_take,
      List.getD_eq_getElem _ _ (by omega : i < xR.length),
      List.getD_eq_getElem _ _ (by omega : i < xL.length)]
  · intro h80 h65
    rw [hlen, h80, h65]
    decide

/-- C2 witness: concrete 2-trial vs 1-trial inputs. -/
theorem trialDiff_rows_witness :
    (trialDiff [[[1, 2]], [[3, 4]]] [[[5, 6]]]).length =
        min ([[[(1 : ℚ), 2]], [[3, 4]]] : List (List (List ℚ))).length 1 ∧
      (trialDiff [[[1, 2]], [[3, 4]]] [[[5, 6]]]).getD 0 [] =
        matSub ([[[(5 : ℚ), 6]]].getD 0 []) ([[[(1 : ℚ), 2]], [[3, 4]]].getD 0 []) := by
  refine ⟨(trialDiff_rows [[[1, 2]], [[3, 4]]] [[[5, 6]]]).1, ?_⟩
  exact (trialDiff_rows [[[1, 2]], [[3, 4]]] [[[5, 6]]]).2.1 0 (by decide)

/-- C4. The colour bounds of lines 108-109 are symmetric:
`vmin = -vmax`, with `vmax` the 98th percentile of the absolute values
of the mean-difference map, NaNs (`none`) ignored. -/
theorem color_bounds_symmetric (diffMean : List (List (Option ℚ))) :
    vminOf diffMean = - vmaxOf diffMean ∧
    vmaxOf diffMean =
      nanPercentile 98 (diffMean.flatten.map (Option.map (fun x => |x|))) :=
  ⟨rfl, rfl⟩

/-- C5. The statistics call receives the trial-wise difference array
flattened to `(n_trials, n_freqs * n_times)` and fixes
`n_permutations = 512` and `seed = 42`. -/
theorem statsCall_args (x3d : List (List (List ℚ))) (nF nT : Nat)
    (hshape : ∀ tr ∈ x3d, tr.length = nF ∧ ∀ row ∈ tr, row.length = nT) :
    (mkClusterCall x3d).nPermutations = 512 ∧
    (mkClusterCall x3d).seed = 42 ∧
    (mkClusterCall x3d).threshold = none ∧
    (mkClusterCall x3d).x = x3d.map List.flatten ∧
    (mkClusterCall x3d).x.length = x3d.length ∧
    ∀ r ∈ (mkClusterCall x3d).x, r.length = nF * nT := by
  refine ⟨rfl, rfl, rfl, rfl, by simp [mkClusterCall], ?_⟩
  intro r hr
  rw [show (mkClusterCall x3d).x = x3d.map List.flatten from rfl] at hr
  obtain ⟨tr, htr, hflat⟩ := List.mem_map.mp hr
  obtain ⟨hF, hT⟩ := hshape tr htr
  have hrep : tr.map List.length = List.replicate nF nT := by
    rw [List.eq_replicate_iff]
    constructor
    · rw [List.length_map, hF]
    · intro b hb
      obtain ⟨row, hrow, hlenb⟩ := List.mem_map.mp hb
      rw [← hlenb]
      exact hT row hrow
  rw [← hflat, List.length_flatten, hrep, List.sum_replicate, smul_eq_mul]

/-- C5 witness: a 2-trial array of 1 x 2 slices. -/
theorem statsCall_args_witness :
    (mkClusterCall [[[1, 2]], [[3, 4]]]).nPermutations = 512 ∧
    (mkClusterCall [[[1, 2]], [[3, 4]]]).seed = 42 ∧
    (mkClusterCall [[[1, 2]], [[3, 4]]]).threshold = none ∧
    (mkClusterCall [[[1, 2]], [[3, 4]]]).x =
      [[[(1 : ℚ), 2]], [[3, 4]]].map List.flatten ∧
    (mkClusterCall [[[1, 2]], [[3, 4]]]).x.length =
      ([[[(1 : ℚ), 2]], [[3, 4]]] : List (List (List ℚ))).length ∧
    ∀ r ∈ (mkClusterCall [[[(1 : ℚ), 2]], [[3, 4]]]).x, r.length = 1 * 2 :=
  statsCall_args [[[1, 2]], [[3, 4]]] 1 2 (by decide)

/-- C3. When the recording has EEG channels, each auditory condition
has at least 80 events, and the disk accepts writes, the run succeeds,
writes the PNG and the report file, and the report contains the line
"Epochs Left/Right used: 80 / 80 (matched n=80)". -/
theorem end_to_end_sample_run (env : Env) (raw : Recording)
    (events : List (Nat × Nat))
    (hraw : env.rawFile = some raw) (hev : env.eventFile = some events)
    (hpick : ((raw.channels.zip raw.signals).filter
        (fun cs => cs.1.kind == ChKind.eeg)).isEmpty = false)
    (hdisk : env.diskOk = true)
    (hL : 80 ≤ (events.filter (fun e => e.2 == 1)).length)
    (hR : 80 ≤ (events.filter (fun e => e.2 == 2)).length) :
    ∃ out, mainE env = Except.ok out ∧
      "results/tfr_diff_with_stats.png" ∈ out.files ∧
      "results/run_report.txt" ∈ out.files ∧
      "Epochs Left/Right used: 80 / 80 (matched n=80)" ∈ out.report := by
  cases hp : pickStep raw with
  | error e =>
    exfalso
    unfold pickStep at hp
    rw [if_neg (by rw [hpick]; exact Bool.false_ne_true)] at hp
    cases hp
  | ok ro =>
  obtain ⟨r1, op⟩ := ro
  have hpre := @preprocess_eq_of_pick_ok env raw events r1 op hp
  have hch1 : r1.channels ≠ [] := by simpa using (pickStep_ok_inv hp).2
  have hnames : (tfrStage env (prepOf env r1 op events).epochsL).chNames ≠ [] := by
    show r1.channels.map Channel.name ≠ []
    intro hm
    exact hch1 (List.map_eq_nil_iff.mp hm)
  obtain ⟨ch, hch⟩ := chooseChannel_ok_of_ne_nil hnames
  have hmain := mainE_eq_of_steps hraw hev hpre hch
  have hLlen : (prepOf env r1 op events).epochsL.trials.length = 80 := by
    show ((selectStep "Auditory/Left" 1 80 (resampleStep env 250
      (epochStep env (bandpassStep env 1 40 r1).1 events [1, 2]
        (-(1/5)) (4/5) none).1).1).1).trials.length = 80
    rw [epochs_cond_length env _ events _ 1 (by decide) _ _ none]
    exact Nat.min_eq_left hL
  have hRlen : (prepOf env r1 op events).epochsR.trials.length = 80 := by
    show ((selectStep "Auditory/Right" 2 80 (resampleStep env 250
      (epochStep env (bandpassStep env 1 40 r1).1 events [1, 2]
        (-(1/5)) (4/5) none).1).1).1).trials.length = 80
    rw [epochs_cond_length env _ events _ 2 (by decide) _ _ none]
    exact Nat.min_eq_left hR
  have hxLlen : (pickData (tfrStage env (prepOf env r1 op events).epochsL)
      ch).length = 80 := by
    rw [pickData_length, tfrStage_trials_length, hLlen]
  have hxRlen : (pickData (tfrStage env (prepOf env r1 op events).epochsR)
      ch).length = 80 := by
    rw [pickData_length, tfrStage_trials_length, hRlen]
  have hcalllen : (mkClusterCall (trialDiff
      (pickData (tfrStage env (prepOf env r1 op events).epochsL) ch)
      (pickData (tfrStage env (prepOf env r1 op events).epochsR) ch))).x.length
      = 80 := by
    show ((trialDiff _ _).map List.flatten).length = 80
    rw [List.length_map, trialDiff_length, hxLlen, hxRlen]
    exact Nat.min_self 80
  have hempty : (mkClusterCall (trialDiff
      (pickData (tfrStage env (prepOf env r1 op events).epochsL) ch)
      (pickData (tfrStage env (prepOf env r1 op events).epochsR) ch))).x.isEmpty
      = false :=
    @isEmpty_false_of_length _ _ 79 hcalllen
  rw [hempty] at hmain
  rw [hdisk] at hmain
  rw [if_neg Bool.false_ne_true, if_pos rfl] at hmain
  refine ⟨runSuccess env (prepOf env r1 op events) ch, hmain, ?_, ?_, ?_⟩
  · exact List.mem_cons_self _ _
  · exact List.mem_cons_of_mem _ (List.mem_cons_self _ _)
  · show "Epochs Left/Right used: 80 / 80 (matched n=80)" ∈
      reportBody ch (prepOf env r1 op events).epochsL.trials.length
        (prepOf env r1 op events).epochsR.trials.length
        (min (pickData (tfrStage env (prepOf env r1 op events).epochsL) ch).length
          (pickData (tfrStage env (prepOf env r1 op events).epochsR) ch).length)
        "(-0.2, 0.0)" (tfrStage env (prepOf env r1 op events).epochsL).freqs
        "results/tfr_diff_with_stats.png"
    rw [hLlen, hRlen, hxLlen, hxRlen, Nat.min_self]
    exact List.mem_cons_of_mem _ (List.mem_cons_of_mem _ (List.mem_cons_self _ _))

/-- C3 witness: the test environment (80 events per condition, one EEG
channel, writable disk) runs end to end with that report line. -/
theorem end_to_end_sample_run_witness :
    ∃ out, mainE envW = Except.ok out ∧
      "results/tfr_diff_with_stats.png" ∈ out.files ∧
      "results/run_report.txt" ∈ out.files ∧
      "Epochs Left/Right used: 80 / 80 (matched n=80)" ∈ out.report :=
  end_to_end_sample_run envW rawW eventsW rfl rfl (by decide) rfl
    (by decide) (by decide)

/-- C6. On any successful preprocessing run the operations happen in
the strict order: pick EEG channels, band-pass 1-40 Hz, epoch
[-0.2 s, 0.8 s] with baseline deferred, resample to 250 Hz, restrict
each condition to its first 80 trials. -/
theorem preprocessing_order (env : Env) (raw : Recording)
    (events : List (Nat × Nat)) (prep : PrepOut)
    (h : preprocess env raw events = Except.ok prep) :
    prep.log = [PrepOp.pickEEG, PrepOp.bandpass 1 40,
      PrepOp.epochWindow (-(1/5)) (4/5) none, PrepOp.resample 250,
      PrepOp.selectTruncate "Auditory/Left" 80,
      PrepOp.selectTruncate "Auditory/Right" 80] := by
  cases hp : pickStep raw with
  | error e => rw [preprocess_eq_of_pick_err hp] at h; cases h
  | ok ro =>
    obtain ⟨r1, op⟩ := ro
    have hop := (pickStep_ok_inv hp).1
    simp only at hop
    rw [preprocess_eq_of_pick_ok hp] at h
    injection h with h'
    rw [← h', hop]
    rfl

/-- C6 witness: the test environment preprocesses successfully with
that exact log. -/
theorem preprocessing_order_witness :
    ∃ prep, preprocess envW rawW [(0, 1), (1, 2)] = Except.ok prep ∧
      prep.log = [PrepOp.pickEEG, PrepOp.bandpass 1 40,
        PrepOp.epochWindow (-(1/5)) (4/5) none, PrepOp.resample 250,
        PrepOp.selectTruncate "Auditory/Left" 80,
        PrepOp.selectTruncate "Auditory/Right" 80] := by
  obtain ⟨prep, hp⟩ :
      ∃ prep, preprocess envW rawW [(0, 1), (1, 2)] = Except.ok prep := ⟨_, rfl⟩
  exact ⟨prep, hp, preprocessing_order envW rawW [(0, 1), (1, 2)] prep hp⟩

/-- C7. The run is a pure function of the environment (input files,
library kernels, fixed seed): equal environments give equal results,
in particular identical per-condition power arrays and identical
significance masks. -/
theorem runs_reproducible (env₁ env₂ : Env) (h : env₁ = env₂) :
    mainE env₁ = mainE env₂ ∧
    (mainE env₁).map Output.powerL = (mainE env₂).map Output.powerL ∧
    (mainE env₁).map Output.powerR = (mainE env₂).map Output.powerR ∧
    (mainE env₁).map Output.sigMask = (mainE env₂).map Output.sigMask := by
  subst h
  exact ⟨rfl, rfl, rfl, rfl⟩

/-- C7 witness: two runs on the test environment. -/
theorem runs_reproducible_witness :
    mainE envW = mainE envW ∧
    (mainE envW).map Output.powerL = (mainE envW).map Output.powerL ∧
    (mainE envW).map Output.powerR = (mainE envW).map Output.powerR ∧
    (mainE envW).map Output.sigMask = (mainE envW).map Output.sigMask :=
  runs_reproducible envW envW rfl

/-- C8. A successful run prints the completion message and exits 0;
every failure (missing raw file, missing event file, empty trial
selection, disk-write failure) propagates uncaught as the run's result
and exits nonzero, and no run recovers from a bad disk. -/
theorem exit_and_error_propagation :
    (∀ env out, mainE env = Except.ok out →
      out.printed = ["Done. Saved: results/tfr_diff_with_stats.png"] ∧
      exitCode (mainE env) = 0 ∧ env.diskOk = true) ∧
    (∀ env e, mainE env = Except.error e → exitCode (mainE env) = 1) ∧
    (∀ env, env.rawFile = none → mainE env = Except.error Err.missingRawFile) ∧
    (∀ env raw, env.rawFile = some raw → env.eventFile = none →
      mainE env = Except.error Err.missingEventFile) ∧
    (∀ env raw events prep ch,
      env.rawFile = some raw → env.eventFile = some events →
      preprocess env raw events = Except.ok prep →
      chooseChannel (tfrStage env prep.epochsL).chNames = Except.ok ch →
      (mkClusterCall (trialDiff (pickData (tfrStage env prep.epochsL) ch)
        (pickData (tfrStage env prep.epochsR) ch))).x.isEmpty = true →
      mainE env = Except.error Err.emptyTrialSet) := by
  refine ⟨?_, ?_, ?_, ?_, ?_⟩
  · intro env out h
    obtain ⟨raw, events, prep, ch, _, _, _, _, _, hdisk, hout⟩ := mainE_ok_inv h
    refine ⟨?_, ?_, hdisk⟩
    · rw [hout]; rfl
    · rw [h]; rfl
  · intro env e h
    rw [h]; rfl
  · intro env hraw
    unfold mainE
    rw [show loadRaw env = Except.error Err.missingRawFile from by
      unfold loadRaw; rw [hraw]]
  · intro env raw hraw hev
    unfold mainE
    rw [loadRaw_some hraw]
    dsimp only
    rw [show loadEvents env = Except.error Err.missingEventFile from by
      unfold loadEvents; rw [hev]]
  · intro env raw events prep ch hraw hev hpre hch hempty
    rw [mainE_eq_of_steps hraw hev hpre hch, if_pos hempty]

/-- C8 witness: a run with the raw recording file missing fails with
that error and exits nonzero. -/
theorem exit_and_error_propagation_witness :
    mainE envNoRaw = Except.error Err.missingRawFile ∧
    exitCode (mainE envNoRaw) = 1 := by
  have h3 := exit_and_error_propagation.2.2.1 envNoRaw rfl
  exact ⟨h3, exit_and_error_propagation.2.1 envNoRaw Err.missingRawFile h3⟩

/-- C10. Channel selection returns "EEG 014" whenever present, else
the first channel; a run never fails at channel selection, and the
selected channel is the one in the figure title and the report. -/
theorem channel_selection_total :
    (∀ names, "EEG 014" ∈ names → chooseChannel names = Except.ok "EEG 014") ∧
    (∀ nm rest, "EEG 014" ∉ (nm :: rest) →
      chooseChannel (nm :: rest) = Except.ok nm) ∧
    (∀ env, mainE env ≠ Except.error Err.emptyChannelList) ∧
    (∀ env out, mainE env = Except.ok out →
      out.titleText = "TFR Difference (Right − Left), logratio baseline — "
        ++ out.channel ∧
      ("Channel: " ++ out.channel) ∈ out.report) := by
  refine ⟨?_, ?_, ?_, ?_⟩
  · intro names hmem
    unfold chooseChannel
    rw [if_pos hmem]
  · intro nm rest hns
    unfold chooseChannel
    rw [if_neg hns]
  · intro env h
    unfold mainE at h
    cases hraw : env.rawFile with
    | none =>
      rw [show loadRaw env = Except.error Err.missingRawFile from by
        unfold loadRaw; rw [hraw]] at h
      simp at h
    | some raw =>
    rw [loadRaw_some hraw] at h
    dsimp only at h
    cases hev : env.eventFile with
    | none =>
      rw [show loadEvents env = Except.error Err.missingEventFile from by
        unfold loadEvents; rw [hev]] at h
      simp at h
    | some events =>
    rw [loadEvents_some hev] at h
    dsimp only at h
    cases hpre : preprocess env raw events with
    | error e =>
      have hpe : e = Err.noChannelsMatched := by
        cases hp : pickStep raw with
        | error e' =>
          have h2 := @preprocess_eq_of_pick_err env raw events _ hp
          rw [hpre] at h2
          injection h2 with h2'
          rw [h2']
          exact pickStep_err_inv hp
        | ok ro =>
          obtain ⟨r1, op⟩ := ro
          have h2 := @preprocess_eq_of_pick_ok env raw events r1 op hp
          rw [hpre] at h2
          cases h2
      rw [hpre] at h
      rw [hpe] at h
      simp at h
    | ok prep =>
    rw [hpre] at h
    dsimp only at h
    obtain ⟨r1, op, hp, hnamesL, _⟩ := preprocess_ok_chNames hpre
    have hch1 : r1.channels ≠ [] := by
      have := (pickStep_ok_inv hp).2
      simpa using this
    have hne : (tfrStage env prep.epochsL).chNames ≠ [] := by
      show prep.epochsL.chNames ≠ []
      rw [hnamesL]
      intro hmap
      exact hch1 (List.map_eq_nil_iff.mp hmap)
    obtain ⟨c, hc⟩ := chooseChannel_ok_of_ne_nil hne
    rw [hc] at h
    dsimp only at h
    split at h
    · cases h
    · split at h
      · cases h
      · injection h with he
        cases he
  · intro env out h
    obtain ⟨raw, events, prep, ch, _, _, _, _, _, _, hout⟩ := mainE_ok_inv h
    rw [hout]
    exact ⟨rfl, List.mem_cons_of_mem _ (List.mem_cons_self _ _)⟩

/-- C10 witness: selection at a list containing the preferred name and
at one without it. -/
theorem channel_selection_total_witness :
    chooseChannel ["EEG 014"] = Except.ok "EEG 014" ∧
    chooseChannel ["Cz"] = Except.ok "Cz" :=
  ⟨channel_selection_total.1 ["EEG 014"] (by decide),
   channel_selection_total.2.1 "Cz" [] (by decide)⟩

/-- C9. Both `compute_tfr` calls use the 50-point grid
`linspace 4 40 50` and a cycle count of `freqs / 2` at every
frequency. -/
theorem nCycles_half_freqs :
    tfrCallL.freqs = linspace 4 40 50 ∧
    tfrCallR.freqs = linspace 4 40 50 ∧
    tfrCallL.freqs.length = 50 ∧
    tfrCallL.nCycles = tfrCallL.freqs.map (fun f => f / 2) ∧
    tfrCallR.nCycles = tfrCallR.freqs.map (fun f => f / 2) ∧
    ∀ i, i < 50 →
      tfrCallL.nCycles.getD i 0 = tfrCallL.freqs.getD i 0 / 2 ∧
      tfrCallR.nCycles.getD i 0 = tfrCallR.freqs.getD i 0 / 2 := by
  refine ⟨rfl, rfl, pipeFreqs_length, rfl, rfl, ?_⟩
  intro i hi
  have h : pipeNCycles.getD i 0 = pipeFreqs.getD i 0 / 2 := by
    have hlt : i < pipeFreqs.length := by rw [pipeFreqs_length]; exact hi
    have hlt2 : i < pipeNCycles.length := by rw [pipeNCycles_length]; exact hi
    rw [List.getD_eq_getElem _ _ hlt2, List.getD_eq_getElem _ _ hlt]
    simp only [pipeNCycles, List.getElem_map]
  exact ⟨h, h⟩

/-- C9 witness: the fifth grid point. -/
theorem nCycles_half_freqs_witness :
    tfrCallL.nCycles.getD 4 0 = tfrCallL.freqs.getD 4 0 / 2 ∧
    tfrCallR.nCycles.getD 4 0 = tfrCallR.freqs.getD 4 0 / 2 :=
  nCycles_half_freqs.2.2.2.2.2 4 (by decide)

end TfrPipeline
